import Mathlib

/-!
Verification development for the "Controle INSS" personal ledger application.

The application keeps a list of transactions (income / expense records) and a
starting balance, derives a chronologically sorted view with running balances
(`processedTransactions`), an aggregate summary (`summary`), mutates the list
through the handlers `handleAddTransaction`, `saveEdit` and
`deleteTransaction`, and requests a short financial advice string from a
generative-text endpoint (`getFinancialAdvice`).

Modelling conventions:
* JavaScript numbers are modelled as rationals (`ℚ`); the repository makes no
  precision guarantee beyond display formatting, and all claims are about
  exact arithmetic identities.
* The `date` string of a transaction (an ISO `YYYY-MM-DD` value produced by a
  date input) is modelled as a `CalDate` record; `CalDate.key` mirrors the
  ordering of `new Date(iso).getTime()`, which for ISO dates coincides with
  lexicographic (hence componentwise) order.
* JavaScript `Array.prototype.sort` with a comparator is a stable sort
  (ES2019); it is modelled with Mathlib's stable `List.insertionSort`.
* The remote database (Supabase) and the generative endpoint are external
  collaborators; their outcomes enter the model as explicit parameters
  (`RemoteCfg`, an oracle `String → AdviceOutcome`).
-/

namespace ControleINSS

/-- The two transaction kinds of `types.ts` (`'INCOME' | 'EXPENSE'`). -/
inductive TxType where
  | INCOME : TxType
  | EXPENSE : TxType
deriving Repr, DecidableEq

/-- A calendar date, modelling the ISO `YYYY-MM-DD` date string stored in a
transaction. -/
structure CalDate where
  year : Nat
  month : Nat
  day : Nat
deriving Repr, DecidableEq

/-- Sort key modelling `new Date(iso).getTime()`: for ISO date strings the
chronological order agrees with the componentwise order `(year, month, day)`,
which this key linearises. -/
def CalDate.key (d : CalDate) : Nat :=
  d.year * 10000 + d.month * 100 + d.day

/-- Gregorian leap-year test. -/
def isLeapYear (y : Nat) : Bool :=
  (y % 4 == 0 && y % 100 != 0) || y % 400 == 0

/-- Number of days of month `m` in year `y`. -/
def daysInMonth (y m : Nat) : Nat :=
  if m = 2 then (if isLeapYear y then 29 else 28)
  else if m = 4 ∨ m = 6 ∨ m = 9 ∨ m = 11 then 30
  else 31

/-- A valid calendar date: month in range and day within the month. -/
def CalDate.valid (d : CalDate) : Prop :=
  1 ≤ d.month ∧ d.month ≤ 12 ∧ 1 ≤ d.day ∧ d.day ≤ daysInMonth d.year d.month

instance (d : CalDate) : Decidable d.valid := by
  unfold CalDate.valid
  infer_instance

/-- The `Transaction` interface of `types.ts`.  `runningBalance` is optional
there (`runningBalance?: number`), hence `Option ℚ` here. -/
structure Transaction where
  id : String
  date : CalDate
  description : String
  amount : ℚ
  type : TxType
  runningBalance : Option ℚ := none
deriving Repr, DecidableEq

/-- The `Summary` interface of `types.ts`. -/
structure Summary where
  initialBalance : ℚ
  totalIncome : ℚ
  totalExpenses : ℚ
  finalBalance : ℚ
deriving Repr, DecidableEq

/-- The comparator of `processedTransactions`:
`(a, b) => new Date(a.date).getTime() - new Date(b.date).getTime()`,
read as the ordering it induces on dates. -/
def dateLe (a b : Transaction) : Prop :=
  a.date.key ≤ b.date.key

instance : DecidableRel dateLe := fun a b =>
  inferInstanceAs (Decidable (a.date.key ≤ b.date.key))

/-- The sorting step of `processedTransactions`:
`[...transactions].sort((a, b) => ...)` — a stable sort by date. -/
def sortByDate (ts : List Transaction) : List Transaction :=
  ts.insertionSort dateLe

/-- The running-balance fold of `processedTransactions`:
`current = t.type === 'INCOME' ? current + t.amount : current - t.amount;`
`return { ...t, runningBalance: current };` applied along the list. -/
def attachRunning (current : ℚ) : List Transaction → List Transaction
  | [] => []
  | t :: rest =>
    let c := if t.type = TxType.INCOME then current + t.amount else current - t.amount
    { t with runningBalance := some c } :: attachRunning c rest

/-- Model of `processedTransactions` from `App.tsx`: sort a copy of the transaction
list by date (stable), then map the running-balance fold over it. -/
def processedTransactions (initialBalance : ℚ) (transactions : List Transaction) :
    List Transaction :=
  attachRunning initialBalance (sortByDate transactions)

/-- Model of `summary` from `App.tsx`: filter/reduce totals and the final balance. -/
def summary (initialBalance : ℚ) (transactions : List Transaction) : Summary :=
  let totalIncome :=
    (transactions.filter (fun t => t.type = TxType.INCOME)).foldl
      (fun acc t => acc + t.amount) 0
  let totalExpenses :=
    (transactions.filter (fun t => t.type = TxType.EXPENSE)).foldl
      (fun acc t => acc + t.amount) 0
  { initialBalance := initialBalance
    totalIncome := totalIncome
    totalExpenses := totalExpenses
    finalBalance := initialBalance + totalIncome - totalExpenses }

/-- The signed contribution of a transaction to the balance: `+amount` for
income, `-amount` for expense. -/
def signedAmount (t : Transaction) : ℚ :=
  if t.type = TxType.INCOME then t.amount else -t.amount

/-- Forget the derived `runningBalance` field, recovering the stored entry. -/
def stripRunning (t : Transaction) : Transaction :=
  { t with runningBalance := none }

/-- Configuration and outcome of the remote database (Supabase) as seen by one
handler call: whether `isSupabaseConfigured && supabase` holds, and whether
the write issued by that handler comes back with an `error`. -/
structure RemoteCfg where
  configured : Bool
  writeFails : Bool
deriving Repr, DecidableEq

/-- Model of `handleAddTransaction` from `App.tsx`, projected onto its effect on the
transaction list.  The form's amount field is a string fed to `parseFloat`;
a `type="number"` input yields either the empty string (modelled `none`) or a
decimal numeral (modelled `some` of its value), so the guard
`!description || !amount || parseFloat(amount) <= 0` reads as below.  On
success the handler builds `{ id: crypto.randomUUID(), date, description,
amount, type }` (the fresh id is the `newId` parameter), attempts a remote
insert whose failure is only logged (`console.warn`), and appends the new
transaction locally regardless of the remote outcome. -/
def handleAddTransaction (description : String) (amount : Option ℚ)
    (date : CalDate) (type : TxType) (newId : String)
    (transactions : List Transaction) : List Transaction :=
  match amount with
  | none => transactions
  | some a =>
    if description = "" ∨ a ≤ 0 then transactions
    else transactions ++
      [{ id := newId, date := date, description := description,
         amount := a, type := type }]

/-- Model of `deleteTransaction` from `App.tsx`, projected onto its effect on the
transaction list: the remote delete's failure is only logged, and locally
`transactions.filter(t => t.id !== id)` is stored regardless. -/
def deleteTransaction (id : String) (transactions : List Transaction) :
    List Transaction :=
  transactions.filter (fun t => t.id ≠ id)

/-- Outcome of one `saveEdit` call: the handler returns early when no edit is
in progress (`!editForm || !editingId`), aborts after an `alert` when the
remote update fails, and otherwise stores the edited list. -/
inductive SaveOutcome where
  | noForm : SaveOutcome
  | remoteError : SaveOutcome
  | saved : SaveOutcome
deriving Repr, DecidableEq

/-- Model of `saveEdit` from `App.tsx`.  Here `editingId`/`editForm` are the component's
editing state; the result is the new transaction list paired with the
call's outcome.  When the remote database is configured and the update
fails, the handler alerts and returns *without* touching the local list;
otherwise it stores `transactions.map(t => t.id === editingId ? editForm : t)`. -/
def saveEdit (cfg : RemoteCfg) (editingId : Option String)
    (editForm : Option Transaction) (transactions : List Transaction) :
    List Transaction × SaveOutcome :=
  match editForm, editingId with
  | some form, some eid =>
    if cfg.configured ∧ cfg.writeFails then (transactions, .remoteError)
    else (transactions.map (fun t => if t.id = eid then form else t), .saved)
  | _, _ => (transactions, .noForm)

/-- Fallback string of `getFinancialAdvice` for an empty transaction list. -/
def adviceEmptyMsg : String :=
  "Adicione lançamentos para receber insights financeiros."

/-- Fallback string of `getFinancialAdvice` when `process.env.API_KEY` is
absent. -/
def adviceNoKeyMsg : String :=
  "Configuração de IA pendente. Adicione a API_KEY nas variáveis de ambiente."

/-- Fallback string of `getFinancialAdvice` when the endpoint answers with an
empty or missing `response.text`. -/
def adviceNoTextMsg : String :=
  "Não foi possível gerar um conselho no momento."

/-- Fallback string of `getFinancialAdvice` when the remote call throws. -/
def adviceFailMsg : String :=
  "A IA está descansando agora. Tente novamente em breve."

/-- Left-pad the decimal numeral of `n` with zeros to width `w`. -/
def padNat (w n : Nat) : String :=
  let s := toString n
  if s.length < w then String.mk (List.replicate (w - s.length) '0') ++ s
  else s

/-- Render a `CalDate` back to the ISO `YYYY-MM-DD` string interpolated by
the advice request template. -/
def CalDate.toIso (d : CalDate) : String :=
  padNat 4 d.year ++ "-" ++ padNat 2 d.month ++ "-" ++ padNat 2 d.day

/-- Model of `Number.prototype.toFixed(2)` on the model's rationals: sign, then the
value rounded to hundredths (round half away from zero) printed with two
decimals. -/
def toFixed2 (q : ℚ) : String :=
  let sign := if q < 0 then "-" else ""
  let cents : Nat := (Int.floor (|q| * 100 + 1/2)).toNat
  sign ++ toString (cents / 100) ++ "." ++ padNat 2 (cents % 100)

/-- One line of the `Transações recentes` block of the advice request:
`` `- ${t.date}: ${t.description} (R$ ${t.amount.toFixed(2)} - ${t.type === 'INCOME' ? 'Entrada' : 'Saída'})` ``. -/
def txLine (t : Transaction) : String :=
  "- " ++ t.date.toIso ++ ": " ++ t.description ++ " (R$ " ++
    toFixed2 t.amount ++ " - " ++
    (if t.type = TxType.INCOME then "Entrada" else "Saída") ++ ")"

/-- JavaScript `array.slice(-n)`: the last `n` elements (the whole array when
it is shorter than `n`). -/
def jsSliceLast (n : Nat) (l : List Transaction) : List Transaction :=
  l.drop (l.length - n)

/-- The `contents` template string of `getFinancialAdvice`: the four summary
lines followed by the last five transactions
(`transactions.slice(-5).map(...).join('\n')`) and the closing instruction. -/
def adviceRequest (transactions : List Transaction) (s : Summary) : String :=
  "\n        Atue como um especialista financeiro para aposentados e pensionistas do INSS brasileiros. \n" ++
  "        Analise o seguinte resumo financeiro em Reais (R$):\n" ++
  "        - Saldo Inicial: R$ " ++ toFixed2 s.initialBalance ++ "\n" ++
  "        - Total de Entradas: R$ " ++ toFixed2 s.totalIncome ++ "\n" ++
  "        - Total de Saídas: R$ " ++ toFixed2 s.totalExpenses ++ "\n" ++
  "        - Saldo Final: R$ " ++ toFixed2 s.finalBalance ++ "\n" ++
  "        \n        Transações recentes:\n        " ++
  String.intercalate "\n" ((jsSliceLast 5 transactions).map txLine) ++
  "\n\n        Dê um conselho curto (máximo 3 frases) e motivador em português.\n      "

/-- Outcome of the `ai.models.generateContent` call: a response whose `text`
may be missing (`none`) or any string, or a thrown error (caught by the
surrounding `try`/`catch`). -/
inductive AdviceOutcome where
  | success : Option String → AdviceOutcome
  | failure : AdviceOutcome
deriving Repr, DecidableEq

/-- Model of `getFinancialAdvice` from `services/geminiService.ts`.  Here `hasKey` models
the presence of `process.env.API_KEY`; `call` is the generative endpoint as
an oracle from the request contents to its outcome.  The source returns the
empty-list message first, then the missing-key message, then issues the
request; `response.text || fallback` maps a missing or empty text to the
fallback, and the `catch` arm maps a thrown error to the resting message. -/
def getFinancialAdvice (hasKey : Bool) (call : String → AdviceOutcome)
    (transactions : List Transaction) (s : Summary) : String :=
  if transactions.length = 0 then adviceEmptyMsg
  else if !hasKey then adviceNoKeyMsg
  else
    match call (adviceRequest transactions s) with
    | .success (some text) => if text = "" then adviceNoTextMsg else text
    | .success none => adviceNoTextMsg
    | .failure => adviceFailMsg

instance : IsTotal Transaction dateLe :=
  ⟨fun a b => Nat.le_total a.date.key b.date.key⟩

instance : IsTrans Transaction dateLe :=
  ⟨fun _ _ _ hab hbc => Nat.le_trans hab hbc⟩

/-- Sample income entry of the spec's Example 1 (date 2024-01-05, amount 500). -/
def exampleIncome : Transaction :=
  { id := "t1", date := ⟨2024, 1, 5⟩, description := "Pensão",
    amount := 500, type := TxType.INCOME }

/-- Sample expense entry of the spec's Example 1 (date 2024-01-01, amount 200). -/
def exampleExpense : Transaction :=
  { id := "t2", date := ⟨2024, 1, 1⟩, description := "Mercado",
    amount := 200, type := TxType.EXPENSE }

/-- Sample edit form for `exampleExpense`: same id, changed description. -/
def editedExpense : Transaction :=
  { exampleExpense with description := "Farmácia", amount := 250 }

/-- Sample family of distinct transactions, for concrete witnesses. -/
def sampleTx (n : Nat) : Transaction :=
  { id := toString n, date := ⟨2024, 3, n % 28 + 1⟩,
    description := "Item " ++ toString n, amount := 10,
    type := TxType.INCOME }

/-- The running-balance fold produces the empty list exactly on empty input. -/
theorem attachRunning_eq_nil_iff (c : ℚ) (l : List Transaction) :
    attachRunning c l = [] ↔ l = [] := by
  cases l <;> simp [attachRunning]

/-- Reduction of the `reduce((acc, t) => acc + t.amount, 0)` pattern to a sum. -/
theorem foldl_add_amount (l : List Transaction) (a : ℚ) :
    l.foldl (fun acc t => acc + t.amount) a = a + (l.map Transaction.amount).sum := by
  induction l generalizing a with
  | nil => simp
  | cons t rest ih => simp [ih, add_assoc]

/-- The signed sum splits as income total minus expense total. -/
theorem sum_signed_split (l : List Transaction) :
    (l.map signedAmount).sum =
      ((l.filter (fun t => t.type = TxType.INCOME)).map Transaction.amount).sum -
      ((l.filter (fun t => t.type = TxType.EXPENSE)).map Transaction.amount).sum := by
  induction l with
  | nil => simp
  | cons t rest ih =>
    cases h : t.type <;>
      simp [signedAmount, List.filter_cons, h, ih] <;> ring

/-- Closed form of `summary`'s final balance: starting balance plus the signed
sum of the amounts. -/
theorem summary_finalBalance_eq (init : ℚ) (ts : List Transaction) :
    (summary init ts).finalBalance = init + (ts.map signedAmount).sum := by
  simp only [summary, foldl_add_amount, sum_signed_split]
  ring

/-- Last element of a cons is the last element of a non-empty tail. -/
theorem auxGetLastCons {α : Type} (a : α) {l : List α} (h : l ≠ []) :
    (a :: l).getLast? = l.getLast? := by
  cases l with
  | nil => exact absurd rfl h
  | cons b m => exact List.getLast?_cons_cons

/-- Running balance attached to the last element of the fold: the accumulator
plus the whole signed sum. -/
theorem attachRunning_getLast (c : ℚ) (l : List Transaction) :
    ((attachRunning c l).getLast?).map Transaction.runningBalance =
      if l = [] then none
      else some (some (c + (l.map signedAmount).sum)) := by
  induction l generalizing c with
  | nil => simp [attachRunning]
  | cons t rest ih =>
    by_cases hr : rest = []
    · subst hr
      by_cases htype : t.type = TxType.INCOME <;>
        simp [attachRunning, signedAmount, htype, sub_eq_add_neg]
    · have htail : ∀ cc : ℚ, attachRunning cc rest ≠ [] :=
        fun cc hnil => hr ((attachRunning_eq_nil_iff cc rest).mp hnil)
      simp only [attachRunning]
      rw [auxGetLastCons _ (htail _), ih]
      rw [if_neg hr, if_neg (by simp : ¬(t :: rest = []))]
      by_cases htype : t.type = TxType.INCOME <;>
        simp [signedAmount, htype, sub_eq_add_neg, add_assoc]

/-- C1: for every ledger, the `finalBalance` of `summary` equals the running
balance attached to the last element of `processedTransactions` when the
transaction list is non-empty, and equals the starting balance when it is
empty. -/
theorem c1_final_balance_cross_check (init : ℚ) (ts : List Transaction) :
    (ts = [] → (summary init ts).finalBalance = init) ∧
    (ts ≠ [] →
      ((processedTransactions init ts).getLast?).map Transaction.runningBalance =
        some (some ((summary init ts).finalBalance))) := by
  constructor
  · rintro rfl
    simp [summary]
  · intro h
    have hp := List.perm_insertionSort dateLe ts
    have hs : sortByDate ts ≠ [] := by
      intro hnil
      rw [sortByDate] at hnil
      rw [hnil] at hp
      exact h hp.symm.eq_nil
    have hsum : ((sortByDate ts).map signedAmount).sum =
        (ts.map signedAmount).sum := ((hp.map signedAmount).sum_eq)
    rw [processedTransactions, attachRunning_getLast, if_neg hs,
      summary_finalBalance_eq, hsum]

/-- Witness for C1 at the spec's Example 1. -/
theorem c1_final_balance_cross_check_witness :
    ([exampleIncome, exampleExpense] ≠ ([] : List Transaction)) ∧
    ((processedTransactions 1000 [exampleIncome, exampleExpense]).getLast?).map
        Transaction.runningBalance =
      some (some ((summary 1000 [exampleIncome, exampleExpense]).finalBalance)) :=
  ⟨by decide,
   (c1_final_balance_cross_check 1000 [exampleIncome, exampleExpense]).2 (by decide)⟩

/-- The fold only fills `runningBalance`: stripping it recovers the input. -/
theorem attachRunning_map_strip (c : ℚ) (l : List Transaction) :
    (attachRunning c l).map stripRunning = l.map stripRunning := by
  induction l generalizing c with
  | nil => rfl
  | cons t rest ih => simp [attachRunning, stripRunning, ih]

/-- The fold preserves every date key. -/
theorem attachRunning_map_key (c : ℚ) (l : List Transaction) :
    (attachRunning c l).map (fun t => t.date.key) =
      l.map (fun t => t.date.key) := by
  induction l generalizing c with
  | nil => rfl
  | cons t rest ih => simp [attachRunning, ih]

/-- The fold preserves every signed amount. -/
theorem attachRunning_map_signed (c : ℚ) (l : List Transaction) :
    (attachRunning c l).map signedAmount = l.map signedAmount := by
  induction l generalizing c with
  | nil => rfl
  | cons t rest ih => simp [attachRunning, signedAmount, ih]

/-- The running balances produced by the fold are the prefix sums of the
signed amounts, shifted by the accumulator. -/
theorem attachRunning_runningBalances (c : ℚ) (l : List Transaction) :
    (attachRunning c l).map Transaction.runningBalance =
      (List.range l.length).map
        (fun i => some (c + ((l.take (i + 1)).map signedAmount).sum)) := by
  induction l generalizing c with
  | nil => rfl
  | cons t rest ih =>
    simp only [attachRunning, List.map_cons, List.length_cons,
      List.range_succ_eq_map, List.map_map]
    refine List.cons_eq_cons.mpr ⟨?_, ?_⟩
    · by_cases htype : t.type = TxType.INCOME <;>
        simp [signedAmount, htype, sub_eq_add_neg]
    · rw [ih]
      refine List.map_congr_left ?_
      intro i _
      by_cases htype : t.type = TxType.INCOME <;>
        simp [Function.comp, signedAmount, htype, sub_eq_add_neg, add_assoc,
          List.take_succ_cons]

/-- Stability of the date sort: for each date key, the entries carrying that
key come out of `sortByDate` exactly in their original relative order. -/
theorem sortByDate_filter_key (ts : List Transaction) (k : Nat) :
    (sortByDate ts).filter (fun t => t.date.key = k) =
      ts.filter (fun t => t.date.key = k) := by
  have hpw : (ts.filter (fun t => t.date.key = k)).Pairwise dateLe := by
    refine List.pairwise_of_forall_mem_list ?_
    intro a ha b hb
    have hak : a.date.key = k := by simpa using (List.mem_filter.mp ha).2
    have hbk : b.date.key = k := by simpa using (List.mem_filter.mp hb).2
    show a.date.key ≤ b.date.key
    rw [hak, hbk]
  have hsub : List.Sublist (ts.filter (fun t => t.date.key = k))
      (sortByDate ts) :=
    List.sublist_insertionSort hpw (List.filter_sublist ts)
  have hself : (ts.filter (fun t => t.date.key = k)).filter
      (fun t => t.date.key = k) = ts.filter (fun t => t.date.key = k) := by
    refine List.filter_eq_self.mpr ?_
    intro a ha
    exact (List.mem_filter.mp ha).2
  have hsub2 : List.Sublist (ts.filter (fun t => t.date.key = k))
      ((sortByDate ts).filter (fun t => t.date.key = k)) := by
    have := hsub.filter (fun t => decide (t.date.key = k))
    rwa [hself] at this
  have hperm : ((sortByDate ts).filter (fun t => t.date.key = k)).Perm
      (ts.filter (fun t => t.date.key = k)) :=
    (List.perm_insertionSort dateLe ts).filter _
  exact (hsub2.eq_of_length hperm.symm.length_eq).symm

/-- The fold does not disturb the per-key subsequences (modulo the derived
`runningBalance` field). -/
theorem attachRunning_filter_key (c : ℚ) (l : List Transaction) (k : Nat) :
    ((attachRunning c l).filter (fun t => t.date.key = k)).map stripRunning =
      (l.filter (fun t => t.date.key = k)).map stripRunning := by
  induction l generalizing c with
  | nil => rfl
  | cons t rest ih =>
    by_cases hk : t.date.key = k <;>
      simp [attachRunning, List.filter_cons, hk, stripRunning, ih]

/-- C2: `processedTransactions` returns the stored entries (the derived
`runningBalance` apart) as a permutation of the input, sorted ascending by
date, with ties in their original relative order, and attaches to the `i`-th
element of the view the running balance obtained by folding the signed
amounts of the first `i + 1` sorted entries onto the starting balance. -/
theorem c2_derive_view_sorted_stable_fold (init : ℚ) (ts : List Transaction) :
    ((processedTransactions init ts).map stripRunning).Perm
      (ts.map stripRunning) ∧
    List.Sorted (· ≤ ·)
      ((processedTransactions init ts).map (fun t => t.date.key)) ∧
    (∀ k : Nat,
      ((processedTransactions init ts).filter
          (fun t => t.date.key = k)).map stripRunning =
        (ts.filter (fun t => t.date.key = k)).map stripRunning) ∧
    (processedTransactions init ts).map Transaction.runningBalance =
      (List.range ts.length).map
        (fun i => some (init +
          (((sortByDate ts).take (i + 1)).map signedAmount).sum)) := by
  refine ⟨?_, ?_, ?_, ?_⟩
  · rw [processedTransactions, attachRunning_map_strip]
    exact (List.perm_insertionSort dateLe ts).map stripRunning
  · rw [processedTransactions, attachRunning_map_key]
    have h1 : List.Pairwise dateLe (sortByDate ts) :=
      List.sorted_insertionSort dateLe ts
    have h2 : List.Pairwise (fun a b : Nat => a ≤ b)
        ((sortByDate ts).map (fun t => t.date.key)) :=
      h1.map (fun t : Transaction => t.date.key) (fun a b h => h)
    exact h2
  · intro k
    rw [processedTransactions, attachRunning_filter_key, sortByDate_filter_key]
  · rw [processedTransactions, attachRunning_runningBalances,
      show (sortByDate ts).length = ts.length from
        (List.perm_insertionSort dateLe ts).length_eq]

/-- Witness for C2: the stability clause at the date key of Example 1's
expense entry, and the running-balance clause, on a concrete two-entry
ledger. -/
theorem c2_derive_view_sorted_stable_fold_witness :
    ((processedTransactions 1000 [exampleIncome, exampleExpense]).filter
        (fun t => t.date.key = 20240101)).map stripRunning =
      ([exampleIncome, exampleExpense].filter
        (fun t => t.date.key = 20240101)).map stripRunning :=
  (c2_derive_view_sorted_stable_fold 1000 [exampleIncome, exampleExpense]).2.2.1
    20240101

/-- C3 counterexample: `handleAddTransaction` does not validate the calendar
date.  With a non-empty description and a positive amount but an invalid
date (month 13, day 40), an entry is still added to the empty ledger. -/
theorem c3_counterexample_date_not_validated :
    ¬ (CalDate.mk 2024 13 40).valid ∧
    handleAddTransaction "Mercado" (some 50) ⟨2024, 13, 40⟩ TxType.EXPENSE
        "fresh" [] ≠ [] := by
  constructor
  · decide
  · decide

/-- C3 (amended): `handleAddTransaction` rejects the submission — returning
the transaction list unchanged, with no entry added — whenever the
description is empty, the amount field is empty, or the amount parses to a
non-positive number; the calendar date is not validated by the handler. -/
theorem c3_validation_guard (description : String) (amount : Option ℚ)
    (date : CalDate) (ty : TxType) (newId : String) (ts : List Transaction)
    (h : description = "" ∨ amount = none ∨ ∃ a, amount = some a ∧ a ≤ 0) :
    handleAddTransaction description amount date ty newId ts = ts := by
  rcases h with h | h | ⟨a, ha, hle⟩
  · cases amount with
    | none => rfl
    | some a => simp [handleAddTransaction, h]
  · subst h
    rfl
  · subst ha
    simp [handleAddTransaction, hle]

/-- Witness for C3's amended guard at the spec's Example 3 (amount −5). -/
theorem c3_validation_guard_witness :
    handleAddTransaction "Remédio" (some (-5)) ⟨2024, 1, 10⟩ TxType.EXPENSE
        "fresh" [exampleIncome] = [exampleIncome] :=
  c3_validation_guard "Remédio" (some (-5)) ⟨2024, 1, 10⟩ TxType.EXPENSE
    "fresh" [exampleIncome] (Or.inr (Or.inr ⟨-5, rfl, by norm_num⟩))

/-- C4 counterexample: with the remote configured and the update failing,
`saveEdit` leaves the matching local entry untouched (the edit form differs
from the stored entry, both carry the edited id, yet the list is returned
unchanged) — the local mutation is blocked by the remote failure. -/
theorem c4_counterexample_remote_failure_blocks_edit :
    (saveEdit ⟨true, true⟩ (some "t2") (some editedExpense)
        [exampleIncome, exampleExpense]).1 = [exampleIncome, exampleExpense] ∧
    editedExpense.id = "t2" ∧ exampleExpense.id = "t2" ∧
    editedExpense ≠ exampleExpense := by
  refine ⟨rfl, rfl, rfl, by decide⟩

/-- C4 (amended): when the remote persist fails, `saveEdit` reports the
failure (outcome `remoteError`, surfaced as an alert) and aborts, leaving the
local list unchanged; when the remote is unconfigured or the persist
succeeds, the entry matching the edited id is replaced by the edit form and
all other entries are kept in place. -/
theorem c4_save_edit_remote_outcome (cfg : RemoteCfg) (eid : String)
    (form : Transaction) (ts : List Transaction) :
    (cfg.configured = true ∧ cfg.writeFails = true →
      saveEdit cfg (some eid) (some form) ts = (ts, SaveOutcome.remoteError)) ∧
    (¬(cfg.configured = true ∧ cfg.writeFails = true) →
      (saveEdit cfg (some eid) (some form) ts).2 = SaveOutcome.saved ∧
      ∀ i : Nat, (saveEdit cfg (some eid) (some form) ts).1[i]? =
        ts[i]?.map (fun t => if t.id = eid then form else t)) := by
  constructor
  · intro h
    simp [saveEdit, h.1, h.2]
  · intro h
    refine ⟨?_, ?_⟩
    · simp [saveEdit, h]
    · intro i
      simp [saveEdit, h]

/-- Witness for C4 at a failing and at an unconfigured remote. -/
theorem c4_save_edit_remote_outcome_witness :
    saveEdit ⟨true, true⟩ (some "t2") (some editedExpense) [exampleExpense] =
      ([exampleExpense], SaveOutcome.remoteError) ∧
    (saveEdit ⟨false, false⟩ (some "t2") (some editedExpense)
        [exampleExpense]).2 = SaveOutcome.saved :=
  ⟨(c4_save_edit_remote_outcome ⟨true, true⟩ "t2" editedExpense
      [exampleExpense]).1 (by decide),
   ((c4_save_edit_remote_outcome ⟨false, false⟩ "t2" editedExpense
      [exampleExpense]).2 (by decide)).1⟩

/-- C5 counterexample: on an id absent from the ledger, `saveEdit` completes
with outcome `saved` — a silent successful no-op, not a `NotFoundError` (no
such error exists anywhere in the handler). -/
theorem c5_counterexample_no_notfound_error :
    saveEdit ⟨false, false⟩ (some "ghost") (some editedExpense)
        [exampleIncome] = ([exampleIncome], SaveOutcome.saved) ∧
    "ghost" ∉ [exampleIncome].map Transaction.id := by
  decide

/-- Replacing by id is the identity when the id is absent. -/
theorem map_replace_absent (eid : String) (form : Transaction)
    (ts : List Transaction) (h : eid ∉ ts.map Transaction.id) :
    ts.map (fun t => if t.id = eid then form else t) = ts := by
  have hpt : ∀ t ∈ ts, (if t.id = eid then form else t) = id t := by
    intro t ht
    have hne : t.id ≠ eid := fun he => h (List.mem_map.mpr ⟨t, ht, he⟩)
    simp [hne]
  exact (List.map_congr_left hpt).trans (List.map_id ts)

/-- C5 (amended): `saveEdit` raises no not-found error.  On an id absent from
the ledger it is a no-op on the list, completing with outcome `saved`
whenever the remote persist does not fail; on a present id, when the remote
persist does not fail, the matching entry is replaced by the edit form and
every non-matching entry is kept. -/
theorem c5_save_edit_absent_present (cfg : RemoteCfg) (eid : String)
    (form : Transaction) (ts : List Transaction) :
    (eid ∉ ts.map Transaction.id →
      (saveEdit cfg (some eid) (some form) ts).1 = ts) ∧
    (eid ∉ ts.map Transaction.id →
      ¬(cfg.configured = true ∧ cfg.writeFails = true) →
      saveEdit cfg (some eid) (some form) ts = (ts, SaveOutcome.saved)) ∧
    (¬(cfg.configured = true ∧ cfg.writeFails = true) →
      ∀ t ∈ ts,
        (t.id = eid → form ∈ (saveEdit cfg (some eid) (some form) ts).1) ∧
        (t.id ≠ eid → t ∈ (saveEdit cfg (some eid) (some form) ts).1)) := by
  refine ⟨?_, ?_, ?_⟩
  · intro habs
    by_cases h : cfg.configured = true ∧ cfg.writeFails = true
    · simp [saveEdit, h.1, h.2]
    · simp [saveEdit, h, map_replace_absent eid form ts habs]
  · intro habs h
    simp [saveEdit, h, map_replace_absent eid form ts habs]
  · intro h t ht
    constructor
    · intro hid
      have : form ∈ ts.map (fun t => if t.id = eid then form else t) := by
        have := List.mem_map_of_mem (fun t => if t.id = eid then form else t) ht
        simpa [hid] using this
      simpa [saveEdit, h] using this
    · intro hid
      have : t ∈ ts.map (fun t => if t.id = eid then form else t) := by
        have := List.mem_map_of_mem (fun t => if t.id = eid then form else t) ht
        simpa [hid] using this
      simpa [saveEdit, h] using this

/-- Witness for C5: absent-id no-op under a failing and a local-only remote,
and replacement of the matching entry on a present id. -/
theorem c5_save_edit_absent_present_witness :
    (saveEdit ⟨true, true⟩ (some "ghost") (some editedExpense)
        [exampleIncome]).1 = [exampleIncome] ∧
    saveEdit ⟨false, false⟩ (some "ghost") (some editedExpense)
        [exampleIncome] = ([exampleIncome], SaveOutcome.saved) ∧
    editedExpense ∈ (saveEdit ⟨false, false⟩ (some "t2") (some editedExpense)
        [exampleIncome, exampleExpense]).1 :=
  ⟨(c5_save_edit_absent_present ⟨true, true⟩ "ghost" editedExpense
      [exampleIncome]).1 (by decide),
   (c5_save_edit_absent_present ⟨false, false⟩ "ghost" editedExpense
      [exampleIncome]).2.1 (by decide) (by decide),
   (((c5_save_edit_absent_present ⟨false, false⟩ "t2" editedExpense
      [exampleIncome, exampleExpense]).2.2 (by decide) exampleExpense
      (by decide)).1 (by decide))⟩

/-- C6: deletion is idempotent — deleting the same id twice equals deleting
it once — and deleting an id absent from the ledger is a successful no-op. -/
theorem c6_delete_idempotent_noop (id : String) (ts : List Transaction) :
    deleteTransaction id (deleteTransaction id ts) = deleteTransaction id ts ∧
    (id ∉ ts.map Transaction.id → deleteTransaction id ts = ts) := by
  constructor
  · simp [deleteTransaction, List.filter_filter]
  · intro h
    refine List.filter_eq_self.mpr ?_
    intro t ht
    have hne : t.id ≠ id := fun he => h (List.mem_map.mpr ⟨t, ht, he⟩)
    simp [hne]

/-- Witness for C6 at the spec's Example 4 (`removeEntry("nonexistent")`). -/
theorem c6_delete_idempotent_noop_witness :
    deleteTransaction "nonexistent" [exampleIncome, exampleExpense] =
      [exampleIncome, exampleExpense] :=
  (c6_delete_idempotent_noop "nonexistent" [exampleIncome, exampleExpense]).2
    (by decide)

/-- C7: `getFinancialAdvice` never raises and always returns a non-empty
user-facing string; the empty-list, missing-key and failed-call cases each
yield their dedicated fallback sentence. -/
theorem c7_advice_total_fallback (hasKey : Bool)
    (call : String → AdviceOutcome) (ts : List Transaction) (s : Summary) :
    (ts = [] → getFinancialAdvice hasKey call ts s = adviceEmptyMsg) ∧
    (ts ≠ [] → hasKey = false →
      getFinancialAdvice hasKey call ts s = adviceNoKeyMsg) ∧
    (ts ≠ [] → hasKey = true →
      call (adviceRequest ts s) = AdviceOutcome.failure →
      getFinancialAdvice hasKey call ts s = adviceFailMsg) ∧
    getFinancialAdvice hasKey call ts s ≠ "" := by
  have hmsg1 : adviceEmptyMsg ≠ "" := by decide
  have hmsg2 : adviceNoKeyMsg ≠ "" := by decide
  have hmsg3 : adviceNoTextMsg ≠ "" := by decide
  have hmsg4 : adviceFailMsg ≠ "" := by decide
  refine ⟨?_, ?_, ?_, ?_⟩
  · rintro rfl
    simp [getFinancialAdvice]
  · intro h hk
    subst hk
    have hlen : ts.length ≠ 0 := by simpa [List.length_eq_zero] using h
    simp [getFinancialAdvice, hlen]
  · intro h hk hc
    subst hk
    have hlen : ts.length ≠ 0 := by simpa [List.length_eq_zero] using h
    simp [getFinancialAdvice, hlen, hc]
  · by_cases h0 : ts.length = 0
    · simpa [getFinancialAdvice, h0] using hmsg1
    · cases hasKey with
      | false => simpa [getFinancialAdvice, h0] using hmsg2
      | true =>
        cases hcall : call (adviceRequest ts s) with
        | failure => simpa [getFinancialAdvice, h0, hcall] using hmsg4
        | success t =>
          cases t with
          | none => simpa [getFinancialAdvice, h0, hcall] using hmsg3
          | some text =>
            by_cases ht : text = ""
            · simp [getFinancialAdvice, h0, hcall, ht, hmsg3]
            · simp [getFinancialAdvice, h0, hcall, ht]

/-- Witness for C7: a failing endpoint yields the resting message, and an
empty ledger yields the add-entries message. -/
theorem c7_advice_total_fallback_witness :
    getFinancialAdvice true (fun _ => AdviceOutcome.failure) [exampleIncome]
        (summary 0 [exampleIncome]) = adviceFailMsg ∧
    getFinancialAdvice false (fun _ => AdviceOutcome.failure) []
        (summary 0 []) = adviceEmptyMsg :=
  ⟨(c7_advice_total_fallback true (fun _ => AdviceOutcome.failure)
      [exampleIncome] (summary 0 [exampleIncome])).2.2.1 (by decide) rfl rfl,
   (c7_advice_total_fallback false (fun _ => AdviceOutcome.failure) []
      (summary 0 [])).1 rfl⟩

/-- C8: `summary` is invariant under permutations of the transaction list —
it is computed from order-independent totals, not from the running fold. -/
theorem c8_summary_perm_invariant (init : ℚ) (ts ts' : List Transaction)
    (h : ts.Perm ts') : summary init ts = summary init ts' := by
  have hI : ((ts.filter (fun t => t.type = TxType.INCOME)).map
        Transaction.amount).sum =
      ((ts'.filter (fun t => t.type = TxType.INCOME)).map
        Transaction.amount).sum :=
    ((h.filter _).map Transaction.amount).sum_eq
  have hE : ((ts.filter (fun t => t.type = TxType.EXPENSE)).map
        Transaction.amount).sum =
      ((ts'.filter (fun t => t.type = TxType.EXPENSE)).map
        Transaction.amount).sum :=
    ((h.filter _).map Transaction.amount).sum_eq
  simp [summary, foldl_add_amount, hI, hE]

/-- Witness for C8 on the transposition of the two Example 1 entries. -/
theorem c8_summary_perm_invariant_witness :
    summary 1000 [exampleIncome, exampleExpense] =
      summary 1000 [exampleExpense, exampleIncome] :=
  c8_summary_perm_invariant 1000 [exampleIncome, exampleExpense]
    [exampleExpense, exampleIncome] (by decide)

/-- C9: pairwise-distinct ids are preserved by every mutation:
`handleAddTransaction` when its fresh id is not already present, `saveEdit`
when the edit form keeps the edited id, and `deleteTransaction`
unconditionally. -/
theorem c9_id_uniqueness_preserved (ts : List Transaction)
    (hn : (ts.map Transaction.id).Nodup) :
    (∀ (d : String) (amount : Option ℚ) (date : CalDate) (ty : TxType)
        (newId : String), newId ∉ ts.map Transaction.id →
      ((handleAddTransaction d amount date ty newId ts).map
          Transaction.id).Nodup) ∧
    (∀ (cfg : RemoteCfg) (eid : String) (form : Transaction), form.id = eid →
      (((saveEdit cfg (some eid) (some form) ts).1).map
          Transaction.id).Nodup) ∧
    (∀ id : String,
      ((deleteTransaction id ts).map Transaction.id).Nodup) := by
  refine ⟨?_, ?_, ?_⟩
  · intro d amount date ty newId hfresh
    cases amount with
    | none => exact hn
    | some a =>
      by_cases hguard : d = "" ∨ a ≤ 0
      · simpa [handleAddTransaction, hguard] using hn
      · have hres : handleAddTransaction d (some a) date ty newId ts =
            ts ++ [{ id := newId, date := date, description := d,
                     amount := a, type := ty }] := by
          simp [handleAddTransaction, hguard]
        rw [hres, List.map_append, List.nodup_append]
        refine ⟨hn, by simp, ?_⟩
        intro x hx hx2
        have hxeq : x = newId := by simpa using hx2
        exact hfresh (hxeq ▸ hx)
  · intro cfg eid form hfid
    by_cases h : cfg.configured = true ∧ cfg.writeFails = true
    · simpa [saveEdit, h.1, h.2] using hn
    · have hres : (saveEdit cfg (some eid) (some form) ts).1 =
          ts.map (fun t => if t.id = eid then form else t) := by
        simp [saveEdit, h]
      have hids : (ts.map (fun t => if t.id = eid then form else t)).map
          Transaction.id = ts.map Transaction.id := by
        rw [List.map_map]
        refine List.map_congr_left ?_
        intro t ht
        by_cases hid : t.id = eid
        · simp [Function.comp, hid, hfid]
        · simp [Function.comp, hid]
      rw [hres, hids]
      exact hn
  · intro id
    have hsub : List.Sublist ((deleteTransaction id ts).map Transaction.id)
        (ts.map Transaction.id) :=
      List.Sublist.map Transaction.id (List.filter_sublist ts)
    exact List.Nodup.sublist hsub hn

/-- Witness for C9: all three mutations on the two-entry example ledger. -/
theorem c9_id_uniqueness_preserved_witness :
    ((handleAddTransaction "Luz" (some 120) ⟨2024, 2, 1⟩ TxType.EXPENSE "t3"
        [exampleIncome, exampleExpense]).map Transaction.id).Nodup ∧
    (((saveEdit ⟨false, false⟩ (some "t2") (some editedExpense)
        [exampleIncome, exampleExpense]).1).map Transaction.id).Nodup ∧
    ((deleteTransaction "t1" [exampleIncome, exampleExpense]).map
        Transaction.id).Nodup :=
  ⟨(c9_id_uniqueness_preserved [exampleIncome, exampleExpense]
      (by decide)).1 "Luz" (some 120) ⟨2024, 2, 1⟩ TxType.EXPENSE "t3"
      (by decide),
   (c9_id_uniqueness_preserved [exampleIncome, exampleExpense]
      (by decide)).2.1 ⟨false, false⟩ "t2" editedExpense (by decide),
   (c9_id_uniqueness_preserved [exampleIncome, exampleExpense]
      (by decide)).2.2 "t1"⟩

/-- C10: the advice request text depends only on the summary and on the last
five transactions (`slice(-5)`): two lists agreeing there give the same
request, and, when both are non-empty, the same advice for every key
configuration and endpoint behaviour. -/
theorem c10_advice_request_last_five (ts1 ts2 : List Transaction)
    (s : Summary) (h : jsSliceLast 5 ts1 = jsSliceLast 5 ts2) :
    adviceRequest ts1 s = adviceRequest ts2 s ∧
    (ts1 ≠ [] → ts2 ≠ [] →
      ∀ (hasKey : Bool) (call : String → AdviceOutcome),
        getFinancialAdvice hasKey call ts1 s =
          getFinancialAdvice hasKey call ts2 s) := by
  have hreq : adviceRequest ts1 s = adviceRequest ts2 s := by
    rw [adviceRequest, adviceRequest, h]
  refine ⟨hreq, ?_⟩
  intro h1 h2 hasKey call
  have hl1 : ts1.length ≠ 0 := by simpa [List.length_eq_zero] using h1
  have hl2 : ts2.length ≠ 0 := by simpa [List.length_eq_zero] using h2
  cases hasKey with
  | false => simp [getFinancialAdvice, hl1, hl2]
  | true => simp [getFinancialAdvice, hl1, hl2, hreq]

/-- Witness for C10: two six-entry lists differing only in their first
element produce the same request text. -/
theorem c10_advice_request_last_five_witness :
    adviceRequest [sampleTx 0, sampleTx 1, sampleTx 2, sampleTx 3,
        sampleTx 4, sampleTx 5] (summary 0 []) =
      adviceRequest [sampleTx 99, sampleTx 1, sampleTx 2, sampleTx 3,
        sampleTx 4, sampleTx 5] (summary 0 []) :=
  (c10_advice_request_last_five
    [sampleTx 0, sampleTx 1, sampleTx 2, sampleTx 3, sampleTx 4, sampleTx 5]
    [sampleTx 99, sampleTx 1, sampleTx 2, sampleTx 3, sampleTx 4, sampleTx 5]
    (summary 0 []) (by decide)).1

end ControleINSS
